import Mathlib

/-!
Verification development for the OutfitX multi-task outfit model and its
fill-in-the-blank evaluation trainer.

The embedding works over ℚ and is parametric in the three real-valued scalar
functions the network uses (exp inside softmax, sqrt inside layer norm and
attention scaling, and the feed-forward activation), collected in
`ScalarFns`.  None of the properties proved here depend on the analytic
choice of these functions.  Dropout layers inside the transformer encoder
are the identity in evaluation mode; the encoder stack below models the
evaluation-mode forward pass.  The dropout of the CP head, whose training-mode
behaviour is observable, is modelled explicitly with its training flag and
a random keep/zero mask.

Tensors of shape [L, D] are modelled as functions `Fin L → Fin d → ℚ`, a
batch [B, L, D] as `Fin B → Fin L → Fin d → ℚ`, boolean padding masks
[L] as `Fin L → Bool` (true marks a padded position), matching the source.
-/

/-- The scalar functions a transformer encoder layer is parametric in:
softmax exponential, square root (layer norm denominator and attention
scaling), and the feed-forward activation. -/
structure ScalarFns where
  expF : ℚ → ℚ
  sqrtF : ℚ → ℚ
  actF : ℚ → ℚ

/-- Dot product of two vectors. -/
def dotQ {n : ℕ} (x y : Fin n → ℚ) : ℚ := ∑ i, x i * y i

/-- An affine map `x ↦ W x + b`, the semantics of nn.Linear with bias. -/
def affine {m n : ℕ} (w : Fin m → Fin n → ℚ) (b : Fin m → ℚ)
    (x : Fin n → ℚ) : Fin m → ℚ :=
  fun i => (∑ j, w i j * x j) + b i

/-- A bias-free linear map `x ↦ W x`, the semantics of nn.Linear(bias=False). -/
def linearNoBias {m n : ℕ} (w : Fin m → Fin n → ℚ) (x : Fin n → ℚ) :
    Fin m → ℚ :=
  fun i => ∑ j, w i j * x j

/-- Parameters of one attention head: query/key/value projections plus
the column block of the output projection for this head. -/
structure HeadParams (d dh : ℕ) where
  wq : Fin dh → Fin d → ℚ
  bq : Fin dh → ℚ
  wk : Fin dh → Fin d → ℚ
  bk : Fin dh → ℚ
  wv : Fin dh → Fin d → ℚ
  bv : Fin dh → ℚ
  wo : Fin d → Fin dh → ℚ

/-- Multi-head attention parameters: `numH` heads plus the output-projection
bias (the per-head output columns live in the per-head wo fields). -/
structure MHAParams (d dh numH : ℕ) where
  heads : Fin numH → HeadParams d dh
  bo : Fin d → ℚ

/-- LayerNorm parameters (elementwise affine) and its epsilon. -/
structure LayerNormParams (d : ℕ) where
  gamma : Fin d → ℚ
  beta : Fin d → ℚ
  eps : ℚ

/-- Parameters of one nn.TransformerEncoderLayer: self-attention, the two
feed-forward linears, the two layer norms, and the norm-first flag. -/
structure EncoderLayerParams (d dh dff numH : ℕ) where
  attn : MHAParams d dh numH
  w1 : Fin dff → Fin d → ℚ
  b1 : Fin dff → ℚ
  w2 : Fin d → Fin dff → ℚ
  b2 : Fin d → ℚ
  ln1 : LayerNormParams d
  ln2 : LayerNormParams d
  normFirst : Bool

/-- Scaled dot-product attention logit between query position i and key
position j (q and k are the projected inputs; scaling by sqrt of the head
dimension as in torch MultiheadAttention). -/
def attnLogit {d dh n : ℕ} (fns : ScalarFns) (p : HeadParams d dh)
    (x : Fin n → Fin d → ℚ) (i j : Fin n) : ℚ :=
  dotQ (affine p.wq p.bq (x i)) (affine p.wk p.bk (x j)) / fns.sqrtF (dh : ℚ)

/-- Softmax normalizer over the unmasked key positions: keys with a true
padding-mask entry get logit -inf in torch, hence weight exp(-inf) = 0 and
no contribution to the normalizer. -/
def attnZ {d dh n : ℕ} (fns : ScalarFns) (p : HeadParams d dh)
    (x : Fin n → Fin d → ℚ) (m : Fin n → Bool) (i : Fin n) : ℚ :=
  ∑ j, if m j then 0 else fns.expF (attnLogit fns p x i j)

/-- Attention weight from query i to key j under the key-padding mask:
zero at masked keys, masked softmax elsewhere. -/
def attnWeight {d dh n : ℕ} (fns : ScalarFns) (p : HeadParams d dh)
    (x : Fin n → Fin d → ℚ) (m : Fin n → Bool) (i j : Fin n) : ℚ :=
  if m j then 0 else fns.expF (attnLogit fns p x i j) / attnZ fns p x m i

/-- The output of one attention head at each position: the attention-weighted sum
of the value projections. -/
def headAttn {d dh n : ℕ} (fns : ScalarFns) (p : HeadParams d dh)
    (x : Fin n → Fin d → ℚ) (m : Fin n → Bool) : Fin n → Fin dh → ℚ :=
  fun i t => ∑ j, attnWeight fns p x m i j * affine p.wv p.bv (x j) t

/-- Multi-head attention output: output projection applied to the
concatenated head outputs (written blockwise) plus the output bias. -/
def mhaOut {d dh numH n : ℕ} (fns : ScalarFns) (p : MHAParams d dh numH)
    (x : Fin n → Fin d → ℚ) (m : Fin n → Bool) : Fin n → Fin d → ℚ :=
  fun i c => (∑ hh, ∑ t, (p.heads hh).wo c t * headAttn fns (p.heads hh) x m i t)
    + p.bo c

/-- LayerNorm over the feature dimension with elementwise affine params. -/
def layerNorm {d : ℕ} (p : LayerNormParams d) (sqrtF : ℚ → ℚ)
    (x : Fin d → ℚ) : Fin d → ℚ :=
  let mu : ℚ := (∑ k, x k) / (d : ℚ)
  let varQ : ℚ := (∑ k, (x k - mu) ^ 2) / (d : ℚ)
  fun k => p.gamma k * ((x k - mu) / sqrtF (varQ + p.eps)) + p.beta k

/-- The position-wise feed-forward block linear2(act(linear1(x))); its
dropout is the identity in evaluation mode. -/
def ffnOut {d dh dff numH : ℕ} (fns : ScalarFns)
    (p : EncoderLayerParams d dh dff numH) (x : Fin d → ℚ) : Fin d → ℚ :=
  affine p.w2 p.b2 (fun j => fns.actF (affine p.w1 p.b1 x j))

/-- The norm-first (pre-norm) variant of nn.TransformerEncoderLayer in
evaluation mode: x + attn(norm1(x)), then + ffn(norm2(·)). -/
def preNormLayer {d dh dff numH n : ℕ} (fns : ScalarFns)
    (p : EncoderLayerParams d dh dff numH)
    (x : Fin n → Fin d → ℚ) (m : Fin n → Bool) : Fin n → Fin d → ℚ :=
  fun i c =>
    (x i c + mhaOut fns p.attn (fun j => layerNorm p.ln1 fns.sqrtF (x j)) m i c)
    + ffnOut fns p (layerNorm p.ln2 fns.sqrtF (fun cc =>
        x i cc
        + mhaOut fns p.attn (fun j => layerNorm p.ln1 fns.sqrtF (x j)) m i cc)) c

/-- The post-norm variant (torch default) of nn.TransformerEncoderLayer in
evaluation mode: norm1(x + attn(x)), then norm2(· + ffn(·)). -/
def postNormLayer {d dh dff numH n : ℕ} (fns : ScalarFns)
    (p : EncoderLayerParams d dh dff numH)
    (x : Fin n → Fin d → ℚ) (m : Fin n → Bool) : Fin n → Fin d → ℚ :=
  fun i => layerNorm p.ln2 fns.sqrtF (fun c =>
    layerNorm p.ln1 fns.sqrtF (fun cc => x i cc + mhaOut fns p.attn x m i cc) c
    + ffnOut fns p
        (layerNorm p.ln1 fns.sqrtF
          (fun cc => x i cc + mhaOut fns p.attn x m i cc)) c)

/-- One nn.TransformerEncoderLayer forward in evaluation mode, honouring
the norm-first flag and the key-padding mask. -/
def encoderLayerF {d dh dff numH n : ℕ} (fns : ScalarFns)
    (p : EncoderLayerParams d dh dff numH)
    (x : Fin n → Fin d → ℚ) (m : Fin n → Bool) : Fin n → Fin d → ℚ :=
  if p.normFirst then preNormLayer fns p x m else postNormLayer fns p x m

/-- nn.TransformerEncoder: the layers applied in sequence, each receiving
the same key-padding mask (no final norm is configured in the source). -/
def encoderStackF {d dh dff numH n : ℕ} (fns : ScalarFns)
    (layers : List (EncoderLayerParams d dh dff numH))
    (x : Fin n → Fin d → ℚ) (m : Fin n → Bool) : Fin n → Fin d → ℚ :=
  layers.foldl (fun acc p => encoderLayerF fns p acc m) x

/-- Non-dependent cons on Fin-indexed families: prepend one position ahead
of a length-n sequence, as torch.cat([x.unsqueeze(1), seq], dim=1) does. -/
def consV {α : Type} {n : ℕ} (a : α) (f : Fin n → α) : Fin (n + 1) → α :=
  Fin.cons a f

@[simp] theorem consV_zero {α : Type} {n : ℕ} (a : α) (f : Fin n → α) :
    consV a f 0 = a := rfl

@[simp] theorem consV_succ {α : Type} {n : ℕ} (a : α) (f : Fin n → α)
    (i : Fin n) : consV a f i.succ = f i := by
  simp [consV]

/-- The learned parameters of OutfitX (2 * hD is the item-encoder embedding
dimension d_embed, dc the catalog embedding dimension cfg.d_embed):
the transformer encoder weights, the CP outfit token, the CP head linear,
the CIR head bias-free linear, and the CIR learned image placeholder of
dimension d_embed // 2. -/
structure OutfitXParams (hD dh dff numH dc : ℕ) where
  layers : List (EncoderLayerParams (hD + hD) dh dff numH)
  outfit_token : Fin (hD + hD) → ℚ
  cpW : Fin 1 → Fin (hD + hD) → ℚ
  cpB : Fin 1 → ℚ
  cirW : Fin dc → Fin (hD + hD) → ℚ
  target_item_image_emb : Fin hD → ℚ
  dropout_p : ℚ

/-- nn.Dropout: in training mode zero the coordinates selected by the
random draw delta and rescale the rest by 1 / (1 - p); in evaluation mode
the identity. -/
def dropoutFn {n : ℕ} (training : Bool) (p : ℚ) (delta : Fin n → Bool)
    (x : Fin n → ℚ) : Fin n → ℚ :=
  if training then fun i => if delta i then 0 else x i / (1 - p) else x

/-- The CP head cp_ffn = Sequential(Dropout, Linear(d_embed, 1)): dropout
then a linear projection to one scalar, no activation. -/
def cp_ffn {hD dh dff numH dc : ℕ} (M : OutfitXParams hD dh dff numH dc)
    (training : Bool) (delta : Fin (hD + hD) → Bool)
    (x : Fin (hD + hD) → ℚ) : Fin 1 → ℚ :=
  affine M.cpW M.cpB (dropoutFn training M.dropout_p delta x)

/-- The CIR head cir_ffn = Sequential(Linear(d_embed, cfg.d_embed,
bias=False)): a single bias-free linear projection into catalog space. -/
def cir_ffn {hD dh dff numH dc : ℕ} (M : OutfitXParams hD dh dff numH dc)
    (x : Fin (hD + hD) → ℚ) : Fin dc → ℚ :=
  linearNoBias M.cirW x

/-- OutfitX._cp_forward on one batch element: optionally replace the given
outfit embedding by the output of the item encoder on encoder_input_dict,
prepend the outfit token and a False mask entry, run the transformer
encoder, take the position-0 state and apply the CP head. -/
def _cp_forward {hD dh dff numH dc L : ℕ} {EncIn : Type} (fns : ScalarFns)
    (M : OutfitXParams hD dh dff numH dc)
    (item_encoder : EncIn → Fin L → Fin (hD + hD) → ℚ)
    (training : Bool) (delta : Fin (hD + hD) → Bool)
    (outfit_embedding : Fin L → Fin (hD + hD) → ℚ)
    (outfit_mask : Fin L → Bool)
    (encoder_input_dict : Option EncIn) : Fin 1 → ℚ :=
  let emb := match encoder_input_dict with
    | some e => item_encoder e
    | none => outfit_embedding
  let transformer_inputs := consV M.outfit_token emb
  let mask := consV false outfit_mask
  let transformer_outputs := encoderStackF fns M.layers transformer_inputs mask
  cp_ffn M training delta (transformer_outputs 0)

/-- OutfitX._cir_forward on one batch element: build the target-item
placeholder by concatenating the learned image placeholder (first half)
with the caller-supplied text embedding (second half), prepend it and a
False mask entry, run the transformer encoder, take the position-0 state
and apply the bias-free CIR head. -/
def _cir_forward {hD dh dff numH dc L : ℕ} (fns : ScalarFns)
    (M : OutfitXParams hD dh dff numH dc)
    (outfit_embedding : Fin L → Fin (hD + hD) → ℚ)
    (outfit_mask : Fin L → Bool)
    (target_item_text_embedding : Fin hD → ℚ) : Fin dc → ℚ :=
  let target_items_embedding :=
    Fin.append M.target_item_image_emb target_item_text_embedding
  let embeddings := consV target_items_embedding outfit_embedding
  let mask := consV false outfit_mask
  let transformer_outputs := encoderStackF fns M.layers embeddings mask
  cir_ffn M (transformer_outputs 0)

/-- OutfitX.precompute_embeddings: run the item encoder on a batch of
length-1 item sequences (shape [B, 1, d_embed]) and return the position-0
slice, one embedding per item (shape [B, d_embed]).  The item encoder is
the external frozen collaborator, modelled as a pure function of its raw
(images, texts) input. -/
def precompute_embeddings {hD B : ℕ} {EncIn : Type}
    (item_encoder : EncIn → Fin B → Fin 1 → Fin (hD + hD) → ℚ)
    (images_texts : EncIn) : Fin B → Fin (hD + hD) → ℚ :=
  fun b => item_encoder images_texts b 0

/-- The task classes OutfitX.forward dispatches on.  The four named
constructors are the registered task types from src.models.datatypes; the
last constructor models any other Python class passed as the task tag,
which has no entry in the forward dictionary. -/
inductive OutfitTaskType where
  | OutfitCompatibilityPredictionTask
  | OutfitComplementaryItemRetrievalTask
  | OutfitFillInTheBlankTask
  | OutfitPrecomputeEmbeddingTask
  | unregisteredTask (n : ℕ)
deriving DecidableEq

/-- The three distinct bound methods stored as values of the forward
dictionary. -/
inductive ForwardPath where
  | cpPath
  | cirPath
  | precomputePath
deriving DecidableEq

/-- The forward dictionary self.forward_ of OutfitX: a lookup from task
class to bound forward method; any unregistered class misses. -/
def forwardTable : OutfitTaskType → Option ForwardPath
  | .OutfitCompatibilityPredictionTask => some .cpPath
  | .OutfitComplementaryItemRetrievalTask => some .cirPath
  | .OutfitFillInTheBlankTask => some .cirPath
  | .OutfitPrecomputeEmbeddingTask => some .precomputePath
  | .unregisteredTask _ => none

/-- Looking up a missing key in the forward dictionary raises KeyError in
Python; the spec taxonomy names this UnsupportedTaskError. -/
inductive UnsupportedTaskError where
  | keyError (t : OutfitTaskType)
deriving DecidableEq

/-- The arguments OutfitX.forward forwards to the chosen path (the union
of the *args/**kwargs of the three paths), batched over Fin B.  EncIn
stands for the raw (images, texts) modality inputs consumed by the item
encoder; delta is the CP-head dropout draw. -/
structure ForwardArgs (hD L B : ℕ) (EncIn : Type) where
  outfit_embedding : Fin B → Fin L → Fin (hD + hD) → ℚ
  outfit_mask : Fin B → Fin L → Bool
  encoder_input_dict : Option EncIn
  target_item_text_embedding : Fin B → Fin hD → ℚ
  images_texts : EncIn
  training : Bool
  delta : Fin B → Fin (hD + hD) → Bool

/-- The possible outputs of OutfitX.forward: CP scores [B, 1], CIR target
embeddings [B, dc], or precomputed item embeddings [B, d_embed]. -/
inductive ForwardOutput (hD dc B : ℕ) where
  | cpOut (scores : Fin B → Fin 1 → ℚ)
  | cirOut (emb : Fin B → Fin dc → ℚ)
  | preOut (emb : Fin B → Fin (hD + hD) → ℚ)

/-- Run one forward path on every batch element. -/
def runPath {hD dh dff numH dc L B : ℕ} {EncIn : Type} (fns : ScalarFns)
    (M : OutfitXParams hD dh dff numH dc)
    (item_encoder : (n : ℕ) → EncIn → Fin B → Fin n → Fin (hD + hD) → ℚ)
    (path : ForwardPath) (a : ForwardArgs hD L B EncIn) :
    ForwardOutput hD dc B :=
  match path with
  | .cpPath => .cpOut (fun b =>
      _cp_forward fns M (fun e => item_encoder L e b) a.training (a.delta b)
        (a.outfit_embedding b) (a.outfit_mask b) a.encoder_input_dict)
  | .cirPath => .cirOut (fun b =>
      _cir_forward fns M (a.outfit_embedding b) (a.outfit_mask b)
        (a.target_item_text_embedding b))
  | .precomputePath => .preOut
      (precompute_embeddings (item_encoder 1) a.images_texts)

/-- OutfitX.forward: look the task class up in the forward dictionary and
call the stored method; a miss raises.  The model parameters are threaded
through so that absence of mutation is expressible: the returned state is
the parameters after the call. -/
def forward {hD dh dff numH dc L B : ℕ} {EncIn : Type} (fns : ScalarFns)
    (M : OutfitXParams hD dh dff numH dc)
    (item_encoder : (n : ℕ) → EncIn → Fin B → Fin n → Fin (hD + hD) → ℚ)
    (task : OutfitTaskType) (a : ForwardArgs hD L B EncIn) :
    Except UnsupportedTaskError (ForwardOutput hD dc B) ×
      OutfitXParams hD dh dff numH dc :=
  match forwardTable task with
  | none => (.error (.keyError task), M)
  | some path => (.ok (runPath fns M item_encoder path a), M)

/-- One embedding shard file: its file name and the pickled payload, a
list of item ids and the parallel embedding matrix (rows). -/
structure Shard where
  name : String
  ids : List ℕ
  embeddings : List (List ℚ)
deriving DecidableEq

/-- The spec taxonomy name for the error load_embeddings raises (a Python
FileNotFoundError in the source) when no shard file matches. -/
inductive MissingEmbeddingCacheError where
  | noFilesFound (pattern : String)
deriving DecidableEq

/-- Lexicographic comparison of character lists by code point, the order
Python sorted() uses on file names. -/
def lexLe : List Char → List Char → Bool
  | [], _ => true
  | _ :: _, [] => false
  | c :: cs, d :: ds =>
    if c.val.toNat < d.val.toNat then true
    else if d.val.toNat < c.val.toNat then false
    else lexLe cs ds

/-- Whether the first character list is an initial segment of the second. -/
def leadsWith : List Char → List Char → Bool
  | [], _ => true
  | _ :: _, [] => false
  | c :: cs, d :: ds => c.val.toNat == d.val.toNat && leadsWith cs ds

/-- Whether a file name matches the glob pattern pref + "*.pkl": it opens
with the prefix string and closes with the ".pkl" extension. -/
def globMatch (pref name : String) : Bool :=
  leadsWith pref.data name.data &&
    leadsWith ".pkl".data.reverse name.data.reverse

/-- Stable insertion into a name-sorted list. -/
def insertSorted (s : Shard) : List Shard → List Shard
  | [] => [s]
  | t :: ts =>
    if lexLe s.name.data t.name.data then s :: t :: ts
    else t :: insertSorted s ts

/-- Python sorted() on shard files: stable ascending sort by file name. -/
def sortByName : List Shard → List Shard
  | [] => []
  | s :: ss => insertSorted s (sortByName ss)

/-- The files `embedding_dir.glob(pref + "*.pkl")` returns, sorted: the
shards whose name matches the glob pattern, in ascending name order. -/
def matchingFiles (shards : List Shard) (pref : String) : List Shard :=
  sortByName (shards.filter (fun s => globMatch pref s.name))

/-- The dict comprehension over zip(all_ids, all_embeddings): a later pair
with the same id overwrites an earlier one, so lookup finds the last
occurrence. -/
def toMapping (pairs : List (ℕ × List ℚ)) : ℕ → Option (List ℚ) :=
  fun i => (pairs.reverse.find? (fun p => p.1 == i)).map (fun p => p.2)

/-- FillInTheBlankTrainer.load_embeddings: glob the shard files by prefix,
fail when none match, otherwise loop over the files in sorted order
extending the id list and appending each embedding matrix, concatenate the
matrices along axis 0, and return the id-keyed mapping. -/
def load_embeddings (shards : List Shard) (pref : String) :
    Except MissingEmbeddingCacheError (ℕ → Option (List ℚ)) :=
  let files := matchingFiles shards pref
  if files = [] then
    .error (.noFilesFound (pref ++ "*.pkl"))
  else
    let all_ids := files.foldl (fun acc f => acc ++ f.ids) []
    let all_embeddings_list :=
      files.foldl (fun acc f => acc ++ [f.embeddings]) ([] : List (List (List ℚ)))
    let all_embeddings := all_embeddings_list.flatten
    .ok (toMapping (all_ids.zip all_embeddings))

/-- The trainer run modes: train-valid, test, custom. -/
inductive RunMode where
  | trainValid
  | test
  | custom
deriving DecidableEq

/-- The errors hook_after_setup can raise (Python ValueError in the
source); the spec taxonomy names the first UnsupportedConcurrencyModeError. -/
inductive HookError where
  | unsupportedConcurrencyMode
  | unknownRunMode
deriving DecidableEq

/-- The checkpoint the hook selects to load. -/
inductive CkptChoice where
  | cpBestAUC
  | cirBestRecallAt1
deriving DecidableEq

/-- FillInTheBlankTrainer.hook_after_setup: reject a worker (replica)
count above one in test mode before anything else, then select the
checkpoint to load by run mode. -/
def hook_after_setup (world_size : ℕ) (run_mode : RunMode) :
    Except HookError CkptChoice :=
  if world_size > 1 ∧ run_mode = RunMode.test then
    .error .unsupportedConcurrencyMode
  else
    match run_mode with
    | .trainValid => .ok .cpBestAUC
    | .test => .ok .cirBestRecallAt1
    | .custom => .error .unknownRunMode

/-- torch.cdist with p = 2 between two single vectors: the square root of
the sum of squared coordinate differences. -/
def euclid {dc : ℕ} (sqrtF : ℚ → ℚ) (x y : Fin dc → ℚ) : ℚ :=
  sqrtF (∑ i, (x i - y i) ^ 2)

/-- torch.argmin over a nonempty vector of values: the index of the first
minimum. -/
def argminFin {k : ℕ} (f : Fin (k + 1) → ℚ) : Fin (k + 1) :=
  (List.finRange (k + 1)).foldl (fun best j => if f j < f best then j else best) 0

/-- One batch element of FillInTheBlankTrainer.test: compute the p = 2
distances from the predicted embedding to each of the candidate item
embeddings and pick the argmin index. -/
def fitbSelect {dc k : ℕ} (sqrtF : ℚ → ℚ) (y_hat : Fin dc → ℚ)
    (candidates : Fin (k + 1) → Fin dc → ℚ) : Fin (k + 1) :=
  argminFin (fun j => euclid sqrtF y_hat (candidates j))

/-- Modelled from the spec: the DistributedTrainer run sequencing (the
trainer base class is not under src/) — setup hooks run first and the test
loop over batches runs only afterwards, so a hook failure aborts the run
before any batch is processed.  Each processed batch contributes its batch
size and its number of correct predictions to the accumulated totals. -/
def runTest {β : Type} (world_size : ℕ) (run_mode : RunMode)
    (batches : List β) (processBatch : β → ℕ × ℕ) :
    Except HookError (ℕ × ℕ) :=
  match hook_after_setup world_size run_mode with
  | .error e => .error e
  | .ok _ => .ok (batches.foldl
      (fun acc b => (acc.1 + (processBatch b).1, acc.2 + (processBatch b).2))
      (0, 0))

/-- Two padded sequences agree at every real (unmasked) position. -/
def agreeUnmasked {d n : ℕ} (m : Fin n → Bool) (x y : Fin n → Fin d → ℚ) :
    Prop :=
  ∀ i, m i = false → x i = y i

theorem attnLogit_congr {d dh n : ℕ} (fns : ScalarFns) (p : HeadParams d dh)
    {x y : Fin n → Fin d → ℚ} {m : Fin n → Bool}
    (hAg : agreeUnmasked m x y) {i j : Fin n}
    (hi : m i = false) (hj : m j = false) :
    attnLogit fns p x i j = attnLogit fns p y i j := by
  simp only [attnLogit, hAg i hi, hAg j hj]

theorem attnZ_congr {d dh n : ℕ} (fns : ScalarFns) (p : HeadParams d dh)
    {x y : Fin n → Fin d → ℚ} {m : Fin n → Bool}
    (hAg : agreeUnmasked m x y) {i : Fin n} (hi : m i = false) :
    attnZ fns p x m i = attnZ fns p y m i := by
  unfold attnZ
  refine Finset.sum_congr rfl (fun j _ => ?_)
  by_cases hj : m j
  · simp [hj]
  · simp only [hj, if_false,
      attnLogit_congr fns p hAg hi (Bool.not_eq_true _ ▸ hj)]

theorem attnWeight_congr {d dh n : ℕ} (fns : ScalarFns) (p : HeadParams d dh)
    {x y : Fin n → Fin d → ℚ} {m : Fin n → Bool}
    (hAg : agreeUnmasked m x y) {i : Fin n} (hi : m i = false) (j : Fin n) :
    attnWeight fns p x m i j = attnWeight fns p y m i j := by
  unfold attnWeight
  by_cases hj : m j
  · simp [hj]
  · have hj' : m j = false := Bool.not_eq_true _ ▸ hj
    simp only [hj, if_false, attnLogit_congr fns p hAg hi hj',
      attnZ_congr fns p hAg hi]

theorem headAttn_congr {d dh n : ℕ} (fns : ScalarFns) (p : HeadParams d dh)
    {x y : Fin n → Fin d → ℚ} {m : Fin n → Bool}
    (hAg : agreeUnmasked m x y) {i : Fin n} (hi : m i = false) :
    headAttn fns p x m i = headAttn fns p y m i := by
  funext t
  unfold headAttn
  refine Finset.sum_congr rfl (fun j _ => ?_)
  by_cases hj : m j
  · have hx : attnWeight fns p x m i j = 0 := by simp [attnWeight, hj]
    have hy : attnWeight fns p y m i j = 0 := by simp [attnWeight, hj]
    rw [hx, hy, zero_mul, zero_mul]
  · have hj' : m j = false := Bool.not_eq_true _ ▸ hj
    rw [attnWeight_congr fns p hAg hi j, hAg j hj']

theorem mhaOut_congr {d dh numH n : ℕ} (fns : ScalarFns)
    (p : MHAParams d dh numH) {x y : Fin n → Fin d → ℚ} {m : Fin n → Bool}
    (hAg : agreeUnmasked m x y) {i : Fin n} (hi : m i = false) :
    mhaOut fns p x m i = mhaOut fns p y m i := by
  funext c
  unfold mhaOut
  congr 1
  refine Finset.sum_congr rfl (fun hh _ => ?_)
  refine Finset.sum_congr rfl (fun t _ => ?_)
  rw [headAttn_congr fns (p.heads hh) hAg hi]

/-- Applying a fixed per-position map preserves agreement at unmasked
positions. -/
theorem agreeUnmasked_map {d e n : ℕ} {m : Fin n → Bool}
    {x y : Fin n → Fin d → ℚ} (g : (Fin d → ℚ) → Fin e → ℚ)
    (hAg : agreeUnmasked m x y) :
    agreeUnmasked m (fun j => g (x j)) (fun j => g (y j)) := by
  intro j hj
  simp only [hAg j hj]

theorem preNormLayer_agree {d dh dff numH n : ℕ} (fns : ScalarFns)
    (p : EncoderLayerParams d dh dff numH)
    {x y : Fin n → Fin d → ℚ} {m : Fin n → Bool}
    (hAg : agreeUnmasked m x y) :
    agreeUnmasked m (preNormLayer fns p x m) (preNormLayer fns p y m) := by
  intro i hi
  have hAgLn : agreeUnmasked m (fun j => layerNorm p.ln1 fns.sqrtF (x j))
      (fun j => layerNorm p.ln1 fns.sqrtF (y j)) :=
    agreeUnmasked_map _ hAg
  have hMha := mhaOut_congr fns p.attn hAgLn hi
  funext c
  unfold preNormLayer
  rw [hAg i hi, hMha]

theorem postNormLayer_agree {d dh dff numH n : ℕ} (fns : ScalarFns)
    (p : EncoderLayerParams d dh dff numH)
    {x y : Fin n → Fin d → ℚ} {m : Fin n → Bool}
    (hAg : agreeUnmasked m x y) :
    agreeUnmasked m (postNormLayer fns p x m) (postNormLayer fns p y m) := by
  intro i hi
  have hMha := mhaOut_congr fns p.attn hAg hi
  funext c
  unfold postNormLayer
  rw [hAg i hi, hMha]

theorem encoderLayerF_agree {d dh dff numH n : ℕ} (fns : ScalarFns)
    (p : EncoderLayerParams d dh dff numH)
    {x y : Fin n → Fin d → ℚ} {m : Fin n → Bool}
    (hAg : agreeUnmasked m x y) :
    agreeUnmasked m (encoderLayerF fns p x m) (encoderLayerF fns p y m) := by
  unfold encoderLayerF
  by_cases hn : p.normFirst
  · simpa [hn] using preNormLayer_agree fns p hAg
  · simpa [hn] using postNormLayer_agree fns p hAg

/-- Masked positions cannot influence unmasked positions through any number
of encoder layers: the key-padding mask removes them from every attention
sum and all other blocks act per position. -/
theorem encoderStackF_agree {d dh dff numH n : ℕ} (fns : ScalarFns)
    (layers : List (EncoderLayerParams d dh dff numH))
    {x y : Fin n → Fin d → ℚ} {m : Fin n → Bool}
    (hAg : agreeUnmasked m x y) :
    agreeUnmasked m (encoderStackF fns layers x m)
      (encoderStackF fns layers y m) := by
  induction layers generalizing x y with
  | nil => exact hAg
  | cons p ps ih =>
    simpa only [encoderStackF, List.foldl_cons]
      using ih (encoderLayerF_agree fns p hAg)

/-- Prepending the same pooling vector and a False mask entry preserves
agreement at unmasked positions, and position 0 is unmasked. -/
theorem consV_agree {d n : ℕ} {m : Fin n → Bool}
    {x y : Fin n → Fin d → ℚ} (tok : Fin d → ℚ)
    (hAg : agreeUnmasked m x y) :
    agreeUnmasked (consV false m) (consV tok x) (consV tok y) := by
  intro i
  refine Fin.cases ?_ (fun j => ?_) i
  · intro _; rfl
  · intro hj
    simp only [consV_succ] at hj ⊢
    exact hAg j hj

/-- The running minimum kept by a foldl with a strict-less update never
exceeds the start value nor any scanned value. -/
theorem foldl_argmin_le {n : ℕ} (f : Fin n → ℚ) (l : List (Fin n))
    (b : Fin n) :
    f (l.foldl (fun best j => if f j < f best then j else best) b) ≤ f b ∧
    ∀ j ∈ l, f (l.foldl (fun best j => if f j < f best then j else best) b)
      ≤ f j := by
  induction l generalizing b with
  | nil => simp
  | cons c cs ih =>
    simp only [List.foldl_cons]
    constructor
    · by_cases h : f c < f b
      · rw [if_pos h]
        exact le_trans (ih c).1 (le_of_lt h)
      · rw [if_neg h]
        exact (ih b).1
    · intro j hj
      rcases List.mem_cons.mp hj with h1 | h2
      · subst h1
        by_cases h : f j < f b
        · rw [if_pos h]
          exact (ih j).1
        · rw [if_neg h]
          exact le_trans (ih b).1 (le_of_not_lt h)
      · by_cases h : f c < f b
        · rw [if_pos h]
          exact (ih c).2 j h2
        · rw [if_neg h]
          exact (ih b).2 j h2

/-- torch.argmin picks an index attaining the minimum value. -/
theorem argminFin_le {k : ℕ} (f : Fin (k + 1) → ℚ) (j : Fin (k + 1)) :
    f (argminFin f) ≤ f j :=
  (foldl_argmin_le f (List.finRange (k + 1)) 0).2 j (List.mem_finRange j)

/-- Repeatedly extending an accumulator list concatenates the pieces in
traversal order. -/
theorem foldl_append_eq_flatten {α β : Type} (g : α → List β) (l : List α)
    (init : List β) :
    l.foldl (fun acc f => acc ++ g f) init = init ++ (l.map g).flatten := by
  induction l generalizing init with
  | nil => simp
  | cons a as ih => simp [ih, List.append_assoc]

/-- Flattening singleton blocks recovers the plain map. -/
theorem flatten_map_singleton {α β : Type} (g : α → List β) (l : List α) :
    (l.map (fun a => [g a])).flatten = l.map g := by
  induction l with
  | nil => rfl
  | cons a as ih => simp [ih]

/-- Concrete scalar functions for evaluating the embedding on small
inputs. -/
def tinyFns : ScalarFns := ⟨fun _ => 1, fun q => q, fun q => q⟩

/-- A concrete attention head at d = 2, dh = 1. -/
def tinyHead : HeadParams 2 1 :=
  ⟨fun _ _ => 1, fun _ => 0, fun _ _ => 1, fun _ => 0,
   fun _ _ => 1, fun _ => 0, fun _ _ => 1⟩

/-- A concrete encoder layer at d = 2, dh = 1, dff = 1, one head. -/
def tinyLayer : EncoderLayerParams 2 1 1 1 :=
  ⟨⟨fun _ => tinyHead, fun _ => 0⟩,
   fun _ _ => 1, fun _ => 0, fun _ _ => 1, fun _ => 0,
   ⟨fun _ => 1, fun _ => 0, 1⟩, ⟨fun _ => 1, fun _ => 0, 1⟩, false⟩

/-- A concrete OutfitX parameter set at hD = 1 (d_embed = 2), dc = 1, one
encoder layer. -/
def tinyM : OutfitXParams 1 1 1 1 1 :=
  ⟨[tinyLayer], fun _ => 0, fun _ _ => 1, fun _ => 0, fun _ _ => 1,
   fun _ => 0, 0⟩

/-- A concrete item encoder: every embedding coordinate equals the raw
input code. -/
def tinyEnc : (n : ℕ) → ℕ → Fin 1 → Fin n → Fin 2 → ℚ :=
  fun _ e _ _ _ => (e : ℚ)

/-- Concrete forward arguments at B = L = 1 in evaluation mode. -/
def tinyArgs : ForwardArgs 1 1 1 ℕ :=
  ⟨fun _ _ _ => 0, fun _ _ => false, none, fun _ _ => 0, 0, false,
   fun _ _ => false⟩

/-- The same forward arguments in training mode with every dropout
coordinate zeroed: only the dropout state differs from tinyArgs. -/
def tinyArgsTrain : ForwardArgs 1 1 1 ℕ :=
  { tinyArgs with training := true, delta := fun _ _ => true }

/-- A concrete embedding batch and a second one differing only at the
padded position of the all-true mask. -/
def tinyX : Fin 1 → Fin 1 → Fin 2 → ℚ := fun _ _ _ => 0

def tinyY : Fin 1 → Fin 1 → Fin 2 → ℚ := fun _ _ _ => 1

def tinyMaskTrue : Fin 1 → Fin 1 → Bool := fun _ _ => true

/-- Two concrete embedding cache shards matching the expected prefix. -/
def shardA : Shard := ⟨"embedding_subset_0.pkl", [1, 2], [[1], [2]]⟩

def shardB : Shard := ⟨"embedding_subset_1.pkl", [3], [[3]]⟩

/-- C1: for every task tag with no registered handler, OutfitX.forward
fails with an UnsupportedTaskError (the KeyError of the dictionary miss),
and every model parameter group (outfit_token, target_item_image_emb, the
CP and CIR head weights, the encoder weights) is unchanged by the failed
call. -/
theorem C1_unregistered_task_rejected {hD dh dff numH dc L B : ℕ}
    {EncIn : Type} (fns : ScalarFns) (M : OutfitXParams hD dh dff numH dc)
    (item_encoder : (n : ℕ) → EncIn → Fin B → Fin n → Fin (hD + hD) → ℚ)
    (t : OutfitTaskType) (hT : forwardTable t = none)
    (a : ForwardArgs hD L B EncIn) :
    (forward fns M item_encoder t a).1 =
      Except.error (UnsupportedTaskError.keyError t) ∧
    (forward fns M item_encoder t a).2 = M ∧
    (forward fns M item_encoder t a).2.outfit_token = M.outfit_token ∧
    (forward fns M item_encoder t a).2.target_item_image_emb =
      M.target_item_image_emb ∧
    (forward fns M item_encoder t a).2.cpW = M.cpW ∧
    (forward fns M item_encoder t a).2.cpB = M.cpB ∧
    (forward fns M item_encoder t a).2.cirW = M.cirW ∧
    (forward fns M item_encoder t a).2.layers = M.layers := by
  unfold forward
  rw [hT]
  exact ⟨rfl, rfl, rfl, rfl, rfl, rfl, rfl, rfl⟩

/-- Witness for C1 at a concrete unregistered tag and concrete model. -/
theorem C1_unregistered_task_rejected_witness :
    (forward tinyFns tinyM tinyEnc (OutfitTaskType.unregisteredTask 0)
      tinyArgs).1 =
      Except.error
        (UnsupportedTaskError.keyError (OutfitTaskType.unregisteredTask 0)) ∧
    (forward tinyFns tinyM tinyEnc (OutfitTaskType.unregisteredTask 0)
      tinyArgs).2 = tinyM := by
  have h := C1_unregistered_task_rejected tinyFns tinyM tinyEnc
    (OutfitTaskType.unregisteredTask 0) (by decide) tinyArgs
  exact ⟨h.1, h.2.1⟩

/-- C3: both encoder paths prepend exactly one pooling position ahead of
the item sequence (giving a length 1 + L input) and one False entry ahead
of the mask (the pooling position is never masked, the item entries keep
their places), and each returns its head applied to the transformed state
at position 0. -/
theorem C3_encoder_prepends_one_position {hD dh dff numH dc L : ℕ}
    {EncIn : Type} (fns : ScalarFns) (M : OutfitXParams hD dh dff numH dc)
    (item_encoder : EncIn → Fin L → Fin (hD + hD) → ℚ)
    (training : Bool) (delta : Fin (hD + hD) → Bool)
    (outfit_embedding : Fin L → Fin (hD + hD) → ℚ)
    (outfit_mask : Fin L → Bool)
    (target_item_text_embedding : Fin hD → ℚ) :
    consV false outfit_mask 0 = false ∧
    (∀ i : Fin L, consV false outfit_mask i.succ = outfit_mask i) ∧
    consV M.outfit_token outfit_embedding 0 = M.outfit_token ∧
    (∀ i : Fin L,
      consV M.outfit_token outfit_embedding i.succ = outfit_embedding i) ∧
    _cp_forward fns M item_encoder training delta outfit_embedding
        outfit_mask none =
      cp_ffn M training delta
        (encoderStackF fns M.layers (consV M.outfit_token outfit_embedding)
          (consV false outfit_mask) 0) ∧
    _cir_forward fns M outfit_embedding outfit_mask
        target_item_text_embedding =
      cir_ffn M
        (encoderStackF fns M.layers
          (consV
            (Fin.append M.target_item_image_emb target_item_text_embedding)
            outfit_embedding)
          (consV false outfit_mask) 0) :=
  ⟨rfl, fun i => consV_succ false outfit_mask i, rfl,
   fun i => consV_succ M.outfit_token outfit_embedding i, rfl, rfl⟩

/-- C4: the CIR forward path is the bias-free linear catalog projection
cir_ffn applied to the pooled state, for every outfit length L, with
output indexed by the catalog dimension dc; being bias-free, the head
maps zero to zero and is additive. -/
theorem C4_cir_output_dimension_and_bias_free {hD dh dff numH dc : ℕ}
    (fns : ScalarFns) (M : OutfitXParams hD dh dff numH dc) :
    (∀ (L : ℕ) (outfit_embedding : Fin L → Fin (hD + hD) → ℚ)
      (outfit_mask : Fin L → Bool)
      (target_item_text_embedding : Fin hD → ℚ),
      _cir_forward fns M outfit_embedding outfit_mask
          target_item_text_embedding =
        linearNoBias M.cirW
          (encoderStackF fns M.layers
            (consV
              (Fin.append M.target_item_image_emb target_item_text_embedding)
              outfit_embedding)
            (consV false outfit_mask) 0)) ∧
    cir_ffn M (fun _ => 0) = (fun _ => 0) ∧
    (∀ x y : Fin (hD + hD) → ℚ,
      cir_ffn M (fun j => x j + y j) =
        fun i => cir_ffn M x i + cir_ffn M y i) := by
  refine ⟨fun L e m t => rfl, ?_, ?_⟩
  · funext i
    simp [cir_ffn, linearNoBias]
  · intro x y
    funext i
    simp [cir_ffn, linearNoBias, mul_add, Finset.sum_add_distrib]

/-- C10: in the CP forward path a non-None encoder_input_dict makes the
caller-supplied outfit embedding irrelevant (any two supplied embeddings
give the same result, namely the result on the item encoder output),
while with None the supplied embedding feeds the encoder unchanged. -/
theorem C10_encoder_input_dict_overrides_embedding {hD dh dff numH dc L : ℕ}
    {EncIn : Type} (fns : ScalarFns) (M : OutfitXParams hD dh dff numH dc)
    (item_encoder : EncIn → Fin L → Fin (hD + hD) → ℚ)
    (training : Bool) (delta : Fin (hD + hD) → Bool)
    (outfit_mask : Fin L → Bool) (e : EncIn) :
    (∀ emb1 emb2 : Fin L → Fin (hD + hD) → ℚ,
      _cp_forward fns M item_encoder training delta emb1 outfit_mask
          (some e) =
        _cp_forward fns M item_encoder training delta emb2 outfit_mask
          (some e)) ∧
    (∀ emb : Fin L → Fin (hD + hD) → ℚ,
      _cp_forward fns M item_encoder training delta emb outfit_mask
          (some e) =
        _cp_forward fns M item_encoder training delta (item_encoder e)
          outfit_mask none) ∧
    (∀ emb : Fin L → Fin (hD + hD) → ℚ,
      _cp_forward fns M item_encoder training delta emb outfit_mask none =
        cp_ffn M training delta
          (encoderStackF fns M.layers (consV M.outfit_token emb)
            (consV false outfit_mask) 0)) :=
  ⟨fun _ _ => rfl, fun _ => rfl, fun _ => rfl⟩

/-- C5: the fill-in-the-blank task dispatches to the very forward method
registered for complementary item retrieval, so equal arguments give equal
outputs; and fill-in-the-blank evaluation selects the candidate of minimum
computed distance to the predicted embedding, an argmin over the finite
candidate set. -/
theorem C5_fitb_reuses_cir_head {hD dh dff numH dc L B k : ℕ}
    {EncIn : Type} (fns : ScalarFns) (M : OutfitXParams hD dh dff numH dc)
    (item_encoder : (n : ℕ) → EncIn → Fin B → Fin n → Fin (hD + hD) → ℚ)
    (a : ForwardArgs hD L B EncIn) (sqF : ℚ → ℚ) (y_hat : Fin dc → ℚ)
    (candidates : Fin (k + 1) → Fin dc → ℚ) :
    forwardTable OutfitTaskType.OutfitFillInTheBlankTask =
      forwardTable OutfitTaskType.OutfitComplementaryItemRetrievalTask ∧
    forward fns M item_encoder OutfitTaskType.OutfitFillInTheBlankTask a =
      forward fns M item_encoder
        OutfitTaskType.OutfitComplementaryItemRetrievalTask a ∧
    (∀ j, euclid sqF y_hat (candidates (fitbSelect sqF y_hat candidates)) ≤
      euclid sqF y_hat (candidates j)) :=
  ⟨rfl, rfl, fun j => argminFin_le (fun j => euclid sqF y_hat (candidates j)) j⟩

/-- C6: the CP head applies dropout first (the identity in evaluation
mode, the rescaled random zeroing in training mode) and then a single
linear projection to one scalar; no activation follows, so in evaluation
mode the head satisfies the affine-map law. -/
theorem C6_cp_head_dropout_then_linear {hD dh dff numH dc : ℕ}
    (M : OutfitXParams hD dh dff numH dc) (delta : Fin (hD + hD) → Bool)
    (x : Fin (hD + hD) → ℚ) :
    cp_ffn M false delta x = affine M.cpW M.cpB x ∧
    cp_ffn M true delta x =
      affine M.cpW M.cpB (dropoutFn true M.dropout_p delta x) ∧
    (∀ u v : Fin (hD + hD) → ℚ,
      (fun i => cp_ffn M false delta (fun j => u j + v j) i +
        cp_ffn M false delta (fun _ => 0) i) =
      fun i => cp_ffn M false delta u i + cp_ffn M false delta v i) := by
  refine ⟨rfl, rfl, fun u v => ?_⟩
  funext i
  simp [cp_ffn, dropoutFn, affine, mul_add, Finset.sum_add_distrib]
  ring

/-- C2: if two outfit-embedding batches agree at every real (mask-False)
position and differ only at padded (mask-True) positions, the transformed
state at pooling position 0 is identical for the two runs, and hence so
are the CP score of _cp_forward and the target embedding of _cir_forward,
on every batch element. -/
theorem C2_padded_positions_cannot_change_pooled_output
    {hD dh dff numH dc L B : ℕ} {EncIn : Type} (fns : ScalarFns)
    (M : OutfitXParams hD dh dff numH dc)
    (item_encoder : EncIn → Fin L → Fin (hD + hD) → ℚ)
    (training : Bool) (delta : Fin B → Fin (hD + hD) → Bool)
    (x y : Fin B → Fin L → Fin (hD + hD) → ℚ)
    (outfit_mask : Fin B → Fin L → Bool)
    (target_item_text_embedding : Fin B → Fin hD → ℚ)
    (hAg : ∀ b i, outfit_mask b i = false → x b i = y b i) :
    (∀ b, encoderStackF fns M.layers (consV M.outfit_token (x b))
        (consV false (outfit_mask b)) 0 =
      encoderStackF fns M.layers (consV M.outfit_token (y b))
        (consV false (outfit_mask b)) 0) ∧
    (∀ b, _cp_forward fns M item_encoder training (delta b) (x b)
        (outfit_mask b) none =
      _cp_forward fns M item_encoder training (delta b) (y b)
        (outfit_mask b) none) ∧
    (∀ b, _cir_forward fns M (x b) (outfit_mask b)
        (target_item_text_embedding b) =
      _cir_forward fns M (y b) (outfit_mask b)
        (target_item_text_embedding b)) := by
  have hstack : ∀ (b : Fin B) (tok : Fin (hD + hD) → ℚ),
      encoderStackF fns M.layers (consV tok (x b))
        (consV false (outfit_mask b)) 0 =
      encoderStackF fns M.layers (consV tok (y b))
        (consV false (outfit_mask b)) 0 := by
    intro b tok
    exact encoderStackF_agree fns M.layers (consV_agree tok (hAg b)) 0 rfl
  refine ⟨fun b => hstack b M.outfit_token, fun b => ?_, fun b => ?_⟩
  · show cp_ffn M training (delta b)
      (encoderStackF fns M.layers (consV M.outfit_token (x b))
        (consV false (outfit_mask b)) 0) = _
    rw [hstack b M.outfit_token]
    rfl
  · show cir_ffn M
      (encoderStackF fns M.layers
        (consV (Fin.append M.target_item_image_emb
          (target_item_text_embedding b)) (x b))
        (consV false (outfit_mask b)) 0) = _
    rw [hstack b (Fin.append M.target_item_image_emb
      (target_item_text_embedding b))]
    rfl

/-- Witness for C2: two concrete batches that differ exactly at the padded
position of an all-padded mask give the same pooled state, CP score and
CIR embedding. -/
theorem C2_padded_positions_cannot_change_pooled_output_witness :
    encoderStackF tinyFns tinyM.layers (consV tinyM.outfit_token (tinyX 0))
        (consV false (tinyMaskTrue 0)) 0 =
      encoderStackF tinyFns tinyM.layers (consV tinyM.outfit_token (tinyY 0))
        (consV false (tinyMaskTrue 0)) 0 ∧
    _cp_forward tinyFns tinyM (tinyEnc 1 · 0) false (fun _ => false)
        (tinyX 0) (tinyMaskTrue 0) none =
      _cp_forward tinyFns tinyM (tinyEnc 1 · 0) false (fun _ => false)
        (tinyY 0) (tinyMaskTrue 0) none ∧
    _cir_forward tinyFns tinyM (tinyX 0) (tinyMaskTrue 0) (fun _ => 0) =
      _cir_forward tinyFns tinyM (tinyY 0) (tinyMaskTrue 0) (fun _ => 0) := by
  have h := C2_padded_positions_cannot_change_pooled_output tinyFns tinyM
    (tinyEnc 1 · 0) false (fun _ _ => false) tinyX tinyY tinyMaskTrue
    (fun _ _ => 0) (by decide)
  exact ⟨h.1 0, h.2.1 0, h.2.2 0⟩

/-- C7: when no shard file matches the expected file-name pattern the
merge fails with MissingEmbeddingCacheError whatever any file contents
are; otherwise it concatenates the id lists and stacks the embedding
matrices of the matching files in sorted file order and returns the
id-keyed mapping built from the zipped pairs. -/
theorem C7_cache_merge_concatenates_in_file_order (shards : List Shard)
    (pref : String) :
    (matchingFiles shards pref = [] →
      load_embeddings shards pref =
        Except.error
          (MissingEmbeddingCacheError.noFilesFound (pref ++ "*.pkl"))) ∧
    (matchingFiles shards pref ≠ [] →
      load_embeddings shards pref =
        Except.ok (toMapping
          ((((matchingFiles shards pref).map Shard.ids).flatten).zip
            (((matchingFiles shards pref).map Shard.embeddings).flatten)))) := by
  constructor
  · intro hempty
    simp only [load_embeddings, hempty, if_pos]
  · intro hne
    simp only [load_embeddings, if_neg hne]
    rw [foldl_append_eq_flatten Shard.ids (matchingFiles shards pref) [],
      List.nil_append,
      foldl_append_eq_flatten (fun f => [f.embeddings])
        (matchingFiles shards pref) [],
      List.nil_append, flatten_map_singleton]

/-- Witness for C7: no shard at all gives the missing-cache error, and the
two concrete shards merge to the mapping over ids [1, 2, 3] with their
stacked rows. -/
theorem C7_cache_merge_concatenates_in_file_order_witness :
    load_embeddings [] "embedding_subset_" =
      Except.error
        (MissingEmbeddingCacheError.noFilesFound "embedding_subset_*.pkl") ∧
    load_embeddings [shardA, shardB] "embedding_subset_" =
      Except.ok (toMapping
        ((((matchingFiles [shardA, shardB] "embedding_subset_").map
            Shard.ids).flatten).zip
          (((matchingFiles [shardA, shardB] "embedding_subset_").map
            Shard.embeddings).flatten))) :=
  ⟨(C7_cache_merge_concatenates_in_file_order [] "embedding_subset_").1
      (by decide),
   (C7_cache_merge_concatenates_in_file_order [shardA, shardB]
      "embedding_subset_").2 (by decide)⟩

/-- C8: requesting test (evaluation) mode with a worker count above one
fails with UnsupportedConcurrencyModeError in the setup hook, before the
test loop touches any batch: the outcome is the same for every batch
list. -/
theorem C8_multiworker_test_rejected {β : Type} (world_size : ℕ)
    (batches : List β) (processBatch : β → ℕ × ℕ)
    (hws : world_size > 1) :
    hook_after_setup world_size RunMode.test =
      Except.error HookError.unsupportedConcurrencyMode ∧
    runTest world_size RunMode.test batches processBatch =
      Except.error HookError.unsupportedConcurrencyMode ∧
    (∀ batches2 : List β,
      runTest world_size RunMode.test batches processBatch =
        runTest world_size RunMode.test batches2 processBatch) := by
  have hhook : hook_after_setup world_size RunMode.test =
      Except.error HookError.unsupportedConcurrencyMode := by
    unfold hook_after_setup
    rw [if_pos ⟨hws, rfl⟩]
  refine ⟨hhook, ?_, ?_⟩
  · unfold runTest
    rw [hhook]
  · intro batches2
    unfold runTest
    rw [hhook]

/-- Witness for C8 at two workers: the run errors out and two different
batch lists give the same (error) outcome. -/
theorem C8_multiworker_test_rejected_witness :
    runTest 2 RunMode.test ([] : List ℕ) (fun _ => (0, 0)) =
      Except.error HookError.unsupportedConcurrencyMode ∧
    runTest 2 RunMode.test ([] : List ℕ) (fun _ => (0, 0)) =
      runTest 2 RunMode.test [7] (fun _ => (0, 0)) :=
  ⟨(C8_multiworker_test_rejected 2 [] (fun _ => (0, 0)) (by decide)).2.1,
   (C8_multiworker_test_rejected 2 [] (fun _ => (0, 0)) (by decide)).2.2 [7]⟩

/-- C9: the precompute-embeddings dispatch depends only on the raw
(images, texts) input — two runs with the same input but any dropout
states, training flags or other arguments produce bit-identical output —
and the operation returns the position-0 slice of the item-encoder output
on the batch of length-1 sequences, one embedding per item. -/
theorem C9_precompute_deterministic {hD dh dff numH dc L B : ℕ}
    {EncIn : Type} (fns : ScalarFns) (M : OutfitXParams hD dh dff numH dc)
    (item_encoder : (n : ℕ) → EncIn → Fin B → Fin n → Fin (hD + hD) → ℚ)
    (a a2 : ForwardArgs hD L B EncIn)
    (hin : a.images_texts = a2.images_texts) :
    forward fns M item_encoder OutfitTaskType.OutfitPrecomputeEmbeddingTask
        a =
      forward fns M item_encoder
        OutfitTaskType.OutfitPrecomputeEmbeddingTask a2 ∧
    (∀ (images_texts : EncIn) (b : Fin B),
      precompute_embeddings (item_encoder 1) images_texts b =
        item_encoder 1 images_texts b 0) := by
  constructor
  · simp only [forward, forwardTable, runPath, precompute_embeddings, hin]
  · intro images_texts b
    rfl

/-- Witness for C9: evaluation-mode and training-mode dropout states give
bit-identical precompute output on the same raw input, and the output row
of batch element 0 is the position-0 slice of the encoder output. -/
theorem C9_precompute_deterministic_witness :
    forward tinyFns tinyM tinyEnc
        OutfitTaskType.OutfitPrecomputeEmbeddingTask tinyArgs =
      forward tinyFns tinyM tinyEnc
        OutfitTaskType.OutfitPrecomputeEmbeddingTask tinyArgsTrain ∧
    @precompute_embeddings 1 1 ℕ (tinyEnc 1) 5 0 = tinyEnc 1 5 0 0 :=
  ⟨(C9_precompute_deterministic tinyFns tinyM tinyEnc tinyArgs
      tinyArgsTrain (by decide)).1,
   (C9_precompute_deterministic tinyFns tinyM tinyEnc tinyArgs
      tinyArgsTrain (by decide)).2 5 0⟩
